import Mathlib

/-!
Verification of the grove edge-set document model (`grove-demo.py`).

The store is the set of edges; we embed it as a `List Edge` whose order
models the iteration order of the Python `set`.  Strings are Lean
`String`s; the Python slicing primitives used by the code
(`startswith`, `endswith`, `s[a:]`, `s[:-n]`) are embedded as
code-point-level operations on `String.data`, which matches Python's
character semantics.  The renderer prints; we embed it twice: as the
pure text function `renderF` (with explicit fuel, since the Python
recursion is unbounded) and as the state-passing `renderP` that threads
the store together with an output buffer, mirroring the `print` calls.
-/

namespace Grove

structure Edge where
  edge_id : String
  node_id_from : String
  node_type_from : String
  position_from : String
  node_id_to : String
  node_type_to : String
  status : String
deriving DecidableEq, Repr

/-- Python `s.startswith(p)` on code points. -/
def pyStartsWith (s p : String) : Bool := p.data.isPrefixOf s.data

/-- Python `s.endswith(p)` on code points. -/
def pyEndsWith (s p : String) : Bool := p.data.isSuffixOf s.data

/-- Python `s[n:]` on code points. -/
def pyDrop (s : String) (n : Nat) : String := ⟨s.data.drop n⟩

/-- Python `s[:-n]` (for `n ≤ len s`) on code points. -/
def pyDropRight (s : String) (n : Nat) : String := ⟨s.data.take (s.data.length - n)⟩

def strJoin : List String → String
  | [] => ""
  | s :: rest => s ++ strJoin rest

/-- The filter `e[NODE_ID_FROM] == root_node_id and e[STATUS] == "active"`. -/
def isActiveFrom (id : String) (e : Edge) : Bool :=
  e.node_id_from == id && e.status == "active"

/-- `edges_from_root` of the source: active edges leaving `id`, in store order. -/
def edgesFrom (edges : List Edge) (id : String) : List Edge :=
  edges.filter (isActiveFrom id)

def isAttrEdge (e : Edge) : Bool := pyStartsWith e.position_from "attr_"

def isPos (p : String) (e : Edge) : Bool := e.position_from == p

/-- `root_node_type.startswith('string("') and root_node_type.endswith('")')`. -/
def isStringType (ty : String) : Bool := pyStartsWith ty "string(\"" && pyEndsWith ty "\")"

/-- `root_node_type.startswith("<") and root_node_type.endswith(">")`. -/
def isElementType (ty : String) : Bool := pyStartsWith ty "<" && pyEndsWith ty ">"

/-- The attribute loop of `render`, as the text it prints. -/
def attrSeg (r : String → String → String) (l : List Edge) : String :=
  strJoin (l.map (fun a => " " ++ pyDrop a.position_from 5 ++ "=\"" ++ r a.node_id_to a.node_type_to ++ "\""))

/-- A plain recursion loop of `render` (`firstChild` / `nextElement`), as text. -/
def seqSeg (r : String → String → String) (l : List Edge) : String :=
  strJoin (l.map (fun e => r e.node_id_to e.node_type_to))

/-- `render` of the source as a pure text function, with fuel making the
unbounded Python recursion total.  Each recursive call of the source
consumes one unit of fuel. -/
def renderF : Nat → List Edge → String → String → String
  | 0, _, _, _ => ""
  | fuel+1, edges, id, ty =>
    (if isStringType ty then pyDropRight (pyDrop ty 8) 2 else "")
    ++ (if isElementType ty then
          pyDropRight ty 1
          ++ attrSeg (renderF fuel edges) ((edgesFrom edges id).filter isAttrEdge)
          ++ ">"
          ++ seqSeg (renderF fuel edges) ((edgesFrom edges id).filter (isPos "firstChild"))
          ++ "</" ++ pyDropRight (pyDrop ty 1) 1 ++ ">"
        else "")
    ++ (if isStringType ty || isElementType ty then
          seqSeg (renderF fuel edges) ((edgesFrom edges id).filter (isPos "nextElement"))
        else "")

/-- `render` at the default fuel `|edges| + 1`, enough for any store whose
active reachable part is acyclic (a path repeats no edge there). -/
def render (edges : List Edge) (id ty : String) : String :=
  renderF (edges.length + 1) edges id ty

/-- Python `<` on strings: lexicographic comparison of code points, a
proper prefix being smaller. -/
def pyStrLt : List Char → List Char → Bool
  | [], [] => false
  | [], _ :: _ => true
  | _ :: _, [] => false
  | a :: as, b :: bs =>
    if a.toNat < b.toNat then true
    else if b.toNat < a.toNat then false
    else pyStrLt as bs

/-- Python `max` over a nonempty list (first maximal element kept). -/
def pyMax (n : String) (ns : List String) : String :=
  ns.foldl (fun a b => if pyStrLt a.data b.data then b else a) n

def pyIntAux : List Char → Nat → Option Nat
  | [], acc => some acc
  | c :: cs, acc => if c.isDigit then pyIntAux cs (acc * 10 + (c.toNat - '0'.toNat)) else none

/-- Python `int(s)` on a string of decimal digits; `none` models the
`ValueError` raised on an empty string or a non-digit character. -/
def pyInt (s : String) : Option Nat :=
  match s.data with
  | [] => none
  | l => pyIntAux l 0

/-- `next_node_id` of the source: the string `max` over all node ids occurring
in the store, its `"node"` prefix sliced off, parsed and incremented.
`none` models the `ValueError` that Python `max`/`int` raise on an empty
store or a non-numeric suffix. -/
def next_node_id (edges : List Edge) : Option String :=
  match edges.map Edge.node_id_to ++ edges.map Edge.node_id_from with
  | [] => none
  | n :: ns =>
    match pyInt (pyDrop (pyMax n ns) 4) with
    | none => none
    | some k => some ("node" ++ toString (k+1))

/-- `next_edge_id` of the source: `f"edge{len(edges)}"`. -/
def next_edge_id (edges : List Edge) : String := "edge" ++ toString edges.length

/-- `add` of the source: allocate ids, append one active edge.  No
legality check of any kind is performed by the source. -/
def add (edges : List Edge) (from_node_id from_node_type from_position to_node_type : String) :
    Option (List Edge) :=
  match next_node_id edges with
  | none => none
  | some nid =>
    some (edges ++ [⟨next_edge_id edges, from_node_id, from_node_type, from_position, nid, to_node_type, "active"⟩])

def add_firstChild (edges : List Edge) (from_node_id from_node_type to_node_type : String) :
    Option (List Edge) :=
  add edges from_node_id from_node_type "firstChild" to_node_type

def add_nextElement (edges : List Edge) (from_node_id from_node_type to_node_type : String) :
    Option (List Edge) :=
  add edges from_node_id from_node_type "nextElement" to_node_type

def add_string (edges : List Edge) (from_node_id from_node_type from_position string_value : String) :
    Option (List Edge) :=
  add edges from_node_id from_node_type from_position ("string(\"" ++ string_value ++ "\")")

def add_href (edges : List Edge) (from_node_id href_value : String) : Option (List Edge) :=
  add_string edges from_node_id "<a>" "attr_href" href_value

/-- The `constructors_positions` table of the source. -/
def constructors_positions (t : String) : Option (List String) :=
  if t == "<body>" then some ["firstChild", "nextElement"]
  else if t == "<a>" then some ["attr_href", "firstChild", "nextElement"]
  else if t == "<p>" then some ["firstChild", "nextElement"]
  else if t == "string(*)" then some ["nextElement"]
  else none

/-- The `example` edge set of the source, listed in its written order. -/
def exampleEdges : List Edge :=
  [ ⟨"edge0", "node0", "<body>", "firstChild", "node1", "<a>", "active"⟩,
    ⟨"edge1", "node1", "<a>", "attr_href", "node2", "string(\"http://example.com\")", "active"⟩,
    ⟨"edge2", "node1", "<a>", "firstChild", "node3", "string(\"Click here\")", "active"⟩,
    ⟨"edge3", "node1", "<a>", "nextElement", "node4", "<p>", "active"⟩,
    ⟨"edge4", "node4", "<p>", "firstChild", "node5", "string(\"Hello, \")", "active"⟩,
    ⟨"edge5", "node5", "string(\"Hello, \")", "nextElement", "node6", "<strong>", "active"⟩,
    ⟨"edge6", "node6", "<strong>", "firstChild", "node7", "string(\"world!\")", "active"⟩ ]

inductive GroveError where
  | UnknownEdge
  | AlreadyRetired
deriving DecidableEq, Repr

/-- Mark every active edge with id `eid` as retired. -/
def retireMark (edges : List Edge) (eid : String) : List Edge :=
  edges.map (fun e => if e.edge_id == eid && e.status == "active" then { e with status := "retired" } else e)

/-- Modelled from the spec: `retire_edge` is absent from the source file
(only `render`'s `status == "active"` filter witnesses the status field);
§4.2 specifies: transition `active → retired`; `UnknownEdge` if the id does
not exist, `AlreadyRetired` if its status is already `retired`; the store is
unchanged on failure (here: an `error` result carries no new store). -/
def retire_edge (edges : List Edge) (eid : String) : Except GroveError (List Edge) :=
  if edges.all (fun e => !(e.edge_id == eid)) then .error .UnknownEdge
  else if edges.any (fun e => e.edge_id == eid && e.status == "active") then .ok (retireMark edges eid)
  else .error .AlreadyRetired

/-- Reachability along active edges, from `root`. -/
inductive Reach (edges : List Edge) (root : String) : String → Prop where
  | refl : Reach edges root root
  | step {v : String} {e : Edge} : Reach edges root v → e ∈ edges → e.status = "active" →
      e.node_id_from = v → Reach edges root e.node_id_to

/-- One `print(s, end='')` on a store-and-output state. -/
def pr (s : String) (st : List Edge × String) : List Edge × String := (st.1, st.2 ++ s)

/-- The attribute `for` loop of `render`, printing as it goes. -/
def attrLoop (rp : String → String → List Edge × String → List Edge × String)
    (l : List Edge) (st : List Edge × String) : List Edge × String :=
  l.foldl (fun acc a => pr "\"" (rp a.node_id_to a.node_type_to (pr (" " ++ pyDrop a.position_from 5 ++ "=\"") acc))) st

/-- A plain recursion `for` loop of `render`, printing as it goes. -/
def seqLoop (rp : String → String → List Edge × String → List Edge × String)
    (l : List Edge) (st : List Edge × String) : List Edge × String :=
  l.foldl (fun acc e => rp e.node_id_to e.node_type_to acc) st

/-- `render` of the source as a state transformer on (store, printed output),
mirroring its `print` calls and its reads of the edge set. -/
def renderP : Nat → String → String → List Edge × String → List Edge × String
  | 0, _, _, st => st
  | fuel+1, id, ty, st =>
    let st1 := if isStringType ty then pr (pyDropRight (pyDrop ty 8) 2) st else st
    let st2 := if isElementType ty then
        pr ("</" ++ pyDropRight (pyDrop ty 1) 1 ++ ">")
          (seqLoop (renderP fuel) ((edgesFrom st.1 id).filter (isPos "firstChild"))
            (pr ">"
              (attrLoop (renderP fuel) ((edgesFrom st.1 id).filter isAttrEdge)
                (pr (pyDropRight ty 1) st1))))
      else st1
    if isStringType ty || isElementType ty then
      seqLoop (renderP fuel) ((edgesFrom st.1 id).filter (isPos "nextElement")) st2
    else st2

/-- The build-and-render scenario of the spec, started from an empty store
with external root `node0` of type `<body>`, using the convenience
mutators of the source. -/
def scenarioC1 : Option String := do
  let s1 ← add_firstChild ([] : List Edge) "node0" "<body>" "<a>"
  let s2 ← add_href s1 "node1" "http://example.com"
  let s3 ← add_string s2 "node1" "<a>" "firstChild" "Click here"
  let s4 ← add_nextElement s3 "node1" "<a>" "<p>"
  let s5 ← add_string s4 "node4" "<p>" "firstChild" "Hello, world!"
  pure (render s5 "node0" "<body>")

/-- Run `k` successful `add` calls (fixed shape), recording each allocated
node id; `none` if any call fails. -/
def allocTrace : List Edge → Nat → Option (List String)
  | _, 0 => some []
  | edges, k+1 =>
    match next_node_id edges, add edges "node0" "<body>" "firstChild" "<p>" with
    | some nid, some edges2 => (allocTrace edges2 k).map (fun rest => nid :: rest)
    | _, _ => none

theorem retireMark_any_active (edges : List Edge) (eid : String) :
    (retireMark edges eid).any (fun e => e.edge_id == eid && e.status == "active") = false := by
  induction edges with
  | nil => rfl
  | cons e tl ih =>
    by_cases h : (e.edge_id == eid && e.status == "active") = true
    · simp only [retireMark, List.map_cons, List.any_cons] at *
      rw [if_pos h]
      simp only [ih, Bool.or_false]
      simp
    · simp only [retireMark, List.map_cons, List.any_cons] at *
      rw [if_neg h]
      simp only [ih, Bool.or_false]
      exact Bool.not_eq_true _ ▸ (Bool.eq_false_iff.mpr h)

theorem retireMark_all_ne (edges : List Edge) (eid : String) :
    (retireMark edges eid).all (fun e => !(e.edge_id == eid)) =
      edges.all (fun e => !(e.edge_id == eid)) := by
  induction edges with
  | nil => rfl
  | cons e tl ih =>
    by_cases h : (e.edge_id == eid && e.status == "active") = true
    · simp only [retireMark, List.map_cons, List.all_cons] at *
      rw [if_pos h, ih]
    · simp only [retireMark, List.map_cons, List.all_cons] at *
      rw [if_neg h, ih]

theorem edgesFrom_cons (id : String) (e : Edge) (l : List Edge) :
    edgesFrom (e :: l) id = if isActiveFrom id e then e :: edgesFrom l id else edgesFrom l id :=
  List.filter_cons

theorem edgesFrom_retireMark (edges : List Edge) (eid id : String) :
    edgesFrom (retireMark edges eid) id =
      edgesFrom (edges.filter (fun e => !(e.edge_id == eid))) id := by
  induction edges with
  | nil => rfl
  | cons e tl ih =>
    have hstep : retireMark (e :: tl) eid =
        (if e.edge_id == eid && e.status == "active" then { e with status := "retired" } else e) ::
          retireMark tl eid := rfl
    by_cases hid : (e.edge_id == eid) = true
    · have hq : (e :: tl).filter (fun x => !(x.edge_id == eid)) =
          tl.filter (fun x => !(x.edge_id == eid)) := by
        rw [List.filter_cons]
        simp [hid]
      by_cases hact : (e.status == "active") = true
      · have hfe : (if e.edge_id == eid && e.status == "active" then
            { e with status := "retired" } else e) = { e with status := "retired" } := by
          rw [hid, hact]
          rfl
        have hdrop : isActiveFrom id { e with status := "retired" } = false := by
          simp [isActiveFrom]
        rw [hstep, hfe, hq, edgesFrom_cons, hdrop, if_neg Bool.false_ne_true]
        exact ih
      · have hactf : (e.status == "active") = false := by simpa using hact
        have hfe : (if e.edge_id == eid && e.status == "active" then
            { e with status := "retired" } else e) = e := by
          rw [hid, hactf]
          rfl
        have hdrop : isActiveFrom id e = false := by
          rw [isActiveFrom, hactf, Bool.and_false]
        rw [hstep, hfe, hq, edgesFrom_cons, hdrop, if_neg Bool.false_ne_true]
        exact ih
    · have hidf : (e.edge_id == eid) = false := by simpa using hid
      have hfe : (if e.edge_id == eid && e.status == "active" then
          { e with status := "retired" } else e) = e := by
        rw [hidf]
        rfl
      have hq : (e :: tl).filter (fun x => !(x.edge_id == eid)) =
          e :: tl.filter (fun x => !(x.edge_id == eid)) := by
        rw [List.filter_cons]
        simp [hidf]
      rw [hstep, hfe, hq, edgesFrom_cons, edgesFrom_cons, ih]

theorem renderF_store_congr (e₁ e₂ : List Edge) (h : ∀ id, edgesFrom e₁ id = edgesFrom e₂ id) :
    ∀ fuel id ty, renderF fuel e₁ id ty = renderF fuel e₂ id ty := by
  intro fuel
  induction fuel with
  | zero => intro id ty; rfl
  | succ n ih =>
    intro id ty
    have hr : renderF n e₁ = renderF n e₂ := funext fun i => funext fun t => ih i t
    simp only [renderF, hr, h id]

theorem wrapString_data (v : String) :
    ("string(\"" ++ v ++ "\")").data = "string(\"".data ++ (v.data ++ "\")".data) := by
  rw [String.data_append, String.data_append, List.append_assoc]

theorem isStringType_wrap (v : String) : isStringType ("string(\"" ++ v ++ "\")") = true := by
  unfold isStringType pyStartsWith pyEndsWith
  rw [wrapString_data, Bool.and_eq_true]
  constructor
  · exact List.isPrefixOf_iff_prefix.mpr ⟨v.data ++ "\")".data, rfl⟩
  · refine List.isSuffixOf_iff_suffix.mpr ⟨"string(\"".data ++ v.data, ?_⟩
    rw [List.append_assoc]

theorem isElementType_wrap (v : String) : isElementType ("string(\"" ++ v ++ "\")") = false := by
  have hsplit : ("string(\"" ++ v ++ "\")") = "s" ++ ("tring(\"" ++ v ++ "\")") := by
    rw [show ("string(\"" : String) = "s" ++ "tring(\"" from rfl, String.append_assoc,
      String.append_assoc, String.append_assoc]
  rw [hsplit]
  unfold isElementType pyStartsWith
  rw [String.data_append]
  have hpre : List.isPrefixOf "<".data ("s".data ++ ("tring(\"" ++ v ++ "\")").data) = false := rfl
  rw [hpre, Bool.false_and]

theorem strip_wrap (v : String) : pyDropRight (pyDrop ("string(\"" ++ v ++ "\")") 8) 2 = v := by
  unfold pyDrop pyDropRight
  apply String.ext
  show (((("string(\"" ++ v ++ "\")").data.drop 8)).take
      ((("string(\"" ++ v ++ "\")").data.drop 8).length - 2)) = v.data
  rw [wrapString_data, List.drop_left' (show ("string(\"" : String).data.length = 8 from rfl),
    List.length_append, show ("\")" : String).data.length = 2 from rfl, Nat.add_sub_cancel]
  exact List.take_left v.data _

theorem renderF_pure_leaf (es : List Edge) (id : String) (fuel : Nat) (v : String)
    (hleaf : edgesFrom es id = []) :
    renderF (fuel+1) es id ("string(\"" ++ v ++ "\")") = v := by
  simp only [renderF]
  rw [isStringType_wrap, isElementType_wrap, hleaf]
  simp [strip_wrap, seqSeg, strJoin]

theorem attrSeg_congr (r₁ r₂ : String → String → String) (l : List Edge)
    (h : ∀ a ∈ l, r₁ a.node_id_to a.node_type_to = r₂ a.node_id_to a.node_type_to) :
    attrSeg r₁ l = attrSeg r₂ l := by
  unfold attrSeg
  congr 1
  exact List.map_congr_left (fun a ha => by rw [h a ha])

theorem seqSeg_congr (r₁ r₂ : String → String → String) (l : List Edge)
    (h : ∀ a ∈ l, r₁ a.node_id_to a.node_type_to = r₂ a.node_id_to a.node_type_to) :
    seqSeg r₁ l = seqSeg r₂ l := by
  unfold seqSeg
  congr 1
  exact List.map_congr_left (fun a ha => h a ha)

theorem mem_filtered_sub (edges : List Edge) (id : String) (p : Edge → Bool) (a : Edge)
    (ha : a ∈ (edgesFrom edges id).filter p) :
    a ∈ edges ∧ a.status = "active" ∧ a.node_id_from = id := by
  have h1 : a ∈ edgesFrom edges id := List.mem_of_mem_filter ha
  have h2 := List.mem_filter.mp h1
  have h3 := Bool.and_eq_true _ _ |>.mp h2.2
  exact ⟨h2.1, by simpa using h3.2, by simpa using h3.1⟩

theorem renderF_fuel_congr (edges : List Edge) (root : String) (rank : String → Nat)
    (hacyc : ∀ e ∈ edges, e.status = "active" → Reach edges root e.node_id_from →
      rank e.node_id_to < rank e.node_id_from) :
    ∀ f₁ v ty f₂, Reach edges root v → rank v < f₁ → rank v < f₂ →
      renderF f₁ edges v ty = renderF f₂ edges v ty := by
  intro f₁
  induction f₁ with
  | zero => intro v ty f₂ _ h1 _; exact absurd h1 (Nat.not_lt_zero _)
  | succ n ih =>
    intro v ty f₂ hv h1 h2
    obtain ⟨m, rfl⟩ : ∃ m, f₂ = m + 1 := ⟨f₂ - 1, by omega⟩
    simp only [renderF]
    have key : ∀ (p : Edge → Bool) (a : Edge), a ∈ (edgesFrom edges v).filter p →
        renderF n edges a.node_id_to a.node_type_to =
          renderF m edges a.node_id_to a.node_type_to := by
      intro p a ha
      obtain ⟨hmem, hstat, hfrom⟩ := mem_filtered_sub edges v p a ha
      have hreach : Reach edges root a.node_id_to := Reach.step hv hmem hstat hfrom
      have hlt : rank a.node_id_to < rank v := by
        have hx := hacyc a hmem hstat (by rw [hfrom]; exact hv)
        rw [hfrom] at hx
        exact hx
      exact ih a.node_id_to a.node_type_to m hreach (by omega) (by omega)
    rw [attrSeg_congr _ _ _ (fun a ha => key _ a ha),
      seqSeg_congr (renderF n edges) (renderF m edges)
        ((edgesFrom edges v).filter (isPos "firstChild")) (fun a ha => key _ a ha),
      seqSeg_congr (renderF n edges) (renderF m edges)
        ((edgesFrom edges v).filter (isPos "nextElement")) (fun a ha => key _ a ha)]

theorem foldl_out (edges : List Edge) (f : List Edge × String → Edge → List Edge × String)
    (g : Edge → String)
    (hf : ∀ (out : String) (a : Edge), f (edges, out) a = (edges, out ++ g a)) :
    ∀ (l : List Edge) (out : String), l.foldl f (edges, out) = (edges, out ++ strJoin (l.map g)) := by
  intro l
  induction l with
  | nil => intro out; simp [strJoin]
  | cons a tl ihl =>
    intro out
    rw [List.foldl_cons, hf, ihl]
    simp [strJoin, String.append_assoc]

/-- C1: the spec's building-and-rendering scenario claims that, starting from
an empty store with external root `node0 : <body>`, the five mutator calls
succeed and `render` yields the given HTML.  On the source code the very
first call already fails: `next_node_id` takes `max` of the node ids
occurring in the edges, and on an empty store that is Python's
`max([])`, a `ValueError` (modelled as `none`), so the scenario aborts
before anything is built. -/
theorem c1_scenario_first_append_fails : scenarioC1 = none := rfl

/-- C2: allocated node ids are claimed to be strictly increasing with no
repeats, for every store and every number of successful `add` calls.  On
the demo store four successful `add` calls allocate
`node8, node9, node10, node10`: `next_node_id` takes the *lexicographic*
string maximum of the node ids, and once `node10` exists the maximum is
still `node9`, so `node10` is allocated a second time — a repeat. -/
theorem c2_node_id_allocation_repeats :
    allocTrace exampleEdges 4 = some ["node8", "node9", "node10", "node10"] ∧
    ¬ (["node8", "node9", "node10", "node10"] : List String).Nodup := by
  exact ⟨by decide, by decide⟩

/-- C3: `insert_edge` with a position that is neither legal for the source
type per the registry nor a reserved convention is claimed to fail with
`IllegalPosition`, leaving the edge count unchanged.  The source's `add`
never consults `constructors_positions` and performs no check at all:
`bogus_position` is not among the legal positions of `<p>`, is not
`attr_`-prefixed and is no reserved name, yet `add` succeeds and the edge
count grows from 7 to 8. -/
theorem c3_bogus_position_accepted :
    constructors_positions "<p>" = some ["firstChild", "nextElement"] ∧
    "bogus_position" ∉ ["firstChild", "nextElement", "value", "head", "tail"] ∧
    pyStartsWith "bogus_position" "attr_" = false ∧
    (add exampleEdges "node4" "<p>" "bogus_position" "<a>").map List.length = some (exampleEdges.length + 1) := by
  exact ⟨rfl, by decide, rfl, by decide⟩

/-- C6: same-position edges are claimed to be rendered in ascending
edge-id order.  The source stores the edges in a Python `set` and renders
them in set-iteration order, which is hash-dependent and unspecified.
Modelling the two possible iteration orders of the same two-edge set
(`edge0 : attr_title`, `edge1 : attr_href`, both leaving `node1`): when the
set iterates `edge1` first, `render` emits `href` (edge1) before `title`
(edge0) — descending edge ids — and the two iteration orders give
different output, so edge ids do not determine the rendered order. -/
theorem c6_attr_order_follows_iteration_order :
    renderF 2 ([⟨"edge1", "node1", "<a>", "attr_href", "node2", "string(\"u\")", "active"⟩,
                ⟨"edge0", "node1", "<a>", "attr_title", "node3", "string(\"t\")", "active"⟩] : List Edge)
      "node1" "<a>" = "<a href=\"u\" title=\"t\"></a>" ∧
    renderF 2 ([⟨"edge0", "node1", "<a>", "attr_title", "node3", "string(\"t\")", "active"⟩,
                ⟨"edge1", "node1", "<a>", "attr_href", "node2", "string(\"u\")", "active"⟩] : List Edge)
      "node1" "<a>" = "<a title=\"t\" href=\"u\"></a>" := by
  exact ⟨rfl, rfl⟩

/-- C9: a leaf `string("Hello, ")` with an active `nextElement` edge to
`<strong>` whose first child is the leaf `string("world!")` renders as
`Hello, <strong>world!</strong>`.  Verified on the source's own example
store, whose `node5` is exactly this configuration. -/
theorem c9_sibling_text_then_element :
    render exampleEdges "node5" "string(\"Hello, \")" = "Hello, <strong>world!</strong>" := rfl

/-- C4: after `retire_edge e` succeeds, rendering is as if the edge had
been deleted outright: for every root, every root type and every fuel,
`render` over the retired store equals `render` over the store with all
`e`-id edges removed.  In particular a subtree whose only path from the
root passes through `e` is omitted entirely (it is unreachable in the
deleted store), and the rendering of every part not reached through `e`
is unchanged (it renders identically in the deleted store).  This holds
because `render` filters on `status == "active"` wherever it reads the
store. -/
theorem c4_retired_edge_invisible (edges : List Edge) (eid : String) (edges' : List Edge)
    (h : retire_edge edges eid = .ok edges') (fuel : Nat) (id ty : String) :
    renderF fuel edges' id ty =
      renderF fuel (edges.filter (fun e => !(e.edge_id == eid))) id ty := by
  obtain rfl : retireMark edges eid = edges' := by
    unfold retire_edge at h
    split at h
    · simp at h
    · split at h
      · injection h
      · simp at h
  exact renderF_store_congr _ _ (fun i => edgesFrom_retireMark edges eid i) fuel id ty

theorem c4_witness :
    renderF 8 (retireMark exampleEdges "edge3") "node0" "<body>" =
      renderF 8 (exampleEdges.filter (fun e => !(e.edge_id == "edge3"))) "node0" "<body>" :=
  c4_retired_edge_invisible exampleEdges "edge3" (retireMark exampleEdges "edge3")
    (by rfl) 8 "node0" "<body>"

/-- C5: when `retire_edge` succeeds on an edge id, calling it again on the
same id yields `AlreadyRetired`; the failing second call returns no new
store, so it changes nothing beyond the first call's effect. -/
theorem c5_retire_twice_already_retired (edges : List Edge) (eid : String) (edges' : List Edge)
    (h : retire_edge edges eid = .ok edges') :
    retire_edge edges' eid = .error .AlreadyRetired := by
  obtain rfl : retireMark edges eid = edges' := by
    unfold retire_edge at h
    split at h
    · simp at h
    · split at h
      · injection h
      · simp at h
  have hne : edges.all (fun e => !(e.edge_id == eid)) = false := by
    unfold retire_edge at h
    split at h
    · simp at h
    · exact Bool.eq_false_iff.mpr (by assumption)
  unfold retire_edge
  rw [retireMark_all_ne, hne, retireMark_any_active]
  simp

theorem c5_witness :
    retire_edge exampleEdges "edge3" = .ok (retireMark exampleEdges "edge3") ∧
    retire_edge (retireMark exampleEdges "edge3") "edge3" = .error .AlreadyRetired :=
  ⟨by rfl, c5_retire_twice_already_retired exampleEdges "edge3" (retireMark exampleEdges "edge3") (by rfl)⟩

/-- C10: `add_string` with payload `v` types the created leaf as the
literal `string("` + `v` + `")` (first conjunct: the appended edge's
destination type is exactly the wrapped payload), and `render` on a node
of that type — classified as a string node, with no active outgoing
edges — emits exactly `v`, because it strips exactly the first 8 and last
2 characters of the type tag: the wrap-then-strip round trip is the
identity on every payload `v`. -/
theorem c10_string_wrap_strip_roundtrip (v : String) (edges : List Edge)
    (fid fty pos : String) (edges' : List Edge)
    (h : add_string edges fid fty pos v = some edges')
    (es : List Edge) (id : String) (fuel : Nat)
    (hleaf : edgesFrom es id = []) :
    edges'.getLast?.map Edge.node_type_to = some ("string(\"" ++ v ++ "\")") ∧
    renderF (fuel+1) es id ("string(\"" ++ v ++ "\")") = v := by
  constructor
  · unfold add_string add at h
    cases hn : next_node_id edges with
    | none => rw [hn] at h; exact absurd h (by simp)
    | some nid =>
      rw [hn] at h
      injection h with h2
      subst h2
      rw [List.getLast?_concat]
      rfl
  · exact renderF_pure_leaf es id fuel v hleaf

theorem c10_witness :
    ((exampleEdges ++
        ([⟨"edge7", "node1", "<a>", "firstChild", "node8", "string(\"Click here\")", "active"⟩] : List Edge)).getLast?.map
      Edge.node_type_to = some ("string(\"" ++ "Click here" ++ "\")")) ∧
    renderF 1 ([] : List Edge) "node8" ("string(\"" ++ "Click here" ++ "\")") = "Click here" :=
  c10_string_wrap_strip_roundtrip "Click here" exampleEdges "node1" "<a>" "firstChild"
    (exampleEdges ++
      [⟨"edge7", "node1", "<a>", "firstChild", "node8", "string(\"Click here\")", "active"⟩])
    (by decide) ([] : List Edge) "node8" 0 rfl

/-- C7: termination of `render` on stores whose active edges, restricted
to the nodes reachable from the root, are acyclic.  Acyclicity is
witnessed by a rank function that strictly decreases along every active
edge leaving a reachable node.  In the fuel embedding, termination of the
source's unbounded recursion is exactly fuel-irrelevance: any two fuel
values above the root's rank give the same text, so the recursion tree is
finite and the Python function returns. -/
theorem c7_render_terminates_on_acyclic (edges : List Edge) (root ty : String)
    (rank : String → Nat)
    (hacyc : ∀ e ∈ edges, e.status = "active" → Reach edges root e.node_id_from →
      rank e.node_id_to < rank e.node_id_from)
    (f₁ f₂ : Nat) (h₁ : rank root < f₁) (h₂ : rank root < f₂) :
    renderF f₁ edges root ty = renderF f₂ edges root ty :=
  renderF_fuel_congr edges root rank hacyc f₁ root ty f₂ Reach.refl h₁ h₂

theorem c7_witness :
    renderF 6 exampleEdges "node0" "<body>" = renderF 9 exampleEdges "node0" "<body>" := by
  refine c7_render_terminates_on_acyclic exampleEdges "node0" "<body>"
    (fun id => if id = "node0" then 5 else if id = "node1" then 4 else
      if id = "node4" then 3 else if id = "node5" then 2 else if id = "node6" then 1 else 0)
    ?_ 6 9 (by decide) (by decide)
  intro e he
  fin_cases he <;> exact fun _ _ => by decide

/-- C8: `render` run as the state transformer it is in the source
(printing into an output buffer, reading the store from the state) leaves
the edge set untouched and appends exactly the pure function
`renderF fuel edges id ty` of its arguments to the buffer.  Hence two
calls with the same arguments on the same store snapshot print the same
text, and no call modifies the edge set. -/
theorem c8_render_pure_deterministic (fuel : Nat) :
    ∀ (id ty : String) (edges : List Edge) (out : String),
      renderP fuel id ty (edges, out) = (edges, out ++ renderF fuel edges id ty) := by
  induction fuel with
  | zero => intro id ty edges out; simp [renderP, renderF]
  | succ n ih =>
    intro id ty edges out
    have hS : ∀ (l : List Edge) (o : String), seqLoop (renderP n) l (edges, o) =
        (edges, o ++ strJoin (l.map (fun e => renderF n edges e.node_id_to e.node_type_to))) := by
      intro l o
      exact foldl_out edges _ _ (fun o₂ e => ih e.node_id_to e.node_type_to edges o₂) l o
    have hA : ∀ (l : List Edge) (o : String), attrLoop (renderP n) l (edges, o) =
        (edges, o ++ strJoin (l.map (fun a =>
          " " ++ pyDrop a.position_from 5 ++ "=\"" ++
            renderF n edges a.node_id_to a.node_type_to ++ "\""))) := by
      intro l o
      refine foldl_out edges _ _ (fun o₂ a => ?_) l o
      have h1 : pr (" " ++ pyDrop a.position_from 5 ++ "=\"") (edges, o₂) =
          (edges, o₂ ++ (" " ++ pyDrop a.position_from 5 ++ "=\"")) := rfl
      rw [h1, ih]
      show (edges, (o₂ ++ (" " ++ pyDrop a.position_from 5 ++ "=\"")) ++
          renderF n edges a.node_id_to a.node_type_to ++ "\"") = _
      simp [String.append_assoc]
    by_cases hs : isStringType ty = true <;> by_cases he : isElementType ty = true <;>
      simp [renderP, renderF, hs, he, hA, hS, pr, attrSeg, seqSeg, String.append_assoc]

end Grove
